import Mathlib

/-!
Shallow embedding of the job-search agent's core logic:
the sqlite-backed job store (`database.ts`), the OpenAI retry wrapper
(`callWithRetry` in the analyzer), the Telegram notifier (`notifyJob` in
`bot.ts`), and the orchestrating `runSearchCycle` (scheduler).
Machine integers are modelled as `Int`/`Nat`; the sqlite `REAL` score column
only ever holds 0..100 match scores, modelled as `Int`.
-/

namespace JobAgent

/-- A row of the `jobs` table (`JobRow` in `database.ts`); `notified` is the
sqlite 0/1 integer column, `match_score`/`match_reasoning` are `NULL`able. -/
structure JobRow where
  id : Nat
  external_id : String
  source : String
  title : String
  company : String
  url : String
  description : String
  location : String
  tags : String
  posted_at : Option String
  match_score : Option Int
  match_reasoning : Option String
  notified : Nat
deriving DecidableEq, Repr

/-- A row of the `bot_chats` table. -/
structure ChatRow where
  chat_id : Int
  active : Bool
deriving DecidableEq, Repr

/-- The database state: the `jobs` table in rowid order, the autoincrement
counter, and the `bot_chats` table. -/
structure DBState where
  jobs : List JobRow
  nextId : Nat
  chats : List ChatRow
deriving DecidableEq, Repr

/-- The argument of `insertJob`: a fetched posting, before the store fills in
`id`, `match_score`, `match_reasoning`, `notified`. -/
structure NewJob where
  external_id : String
  source : String
  title : String
  company : String
  url : String
  description : String
  location : String
  tags : String
  posted_at : Option String
deriving DecidableEq, Repr

/-- Whether a stored row carries the natural key `(source, external_id)`. -/
def sameKey (source external_id : String) (j : JobRow) : Bool :=
  j.source = source && j.external_id = external_id

/-- Whether some stored row already has the key (the `UNIQUE(source, external_id)`
constraint consulted by `INSERT OR IGNORE`). -/
def hasKey (st : DBState) (source external_id : String) : Bool :=
  st.jobs.any (sameKey source external_id)

/-- The fresh row created for a new posting (`DEFAULT` columns filled in). -/
def freshRow (j : NewJob) (id : Nat) : JobRow :=
  { id := id, external_id := j.external_id, source := j.source,
    title := j.title, company := j.company, url := j.url,
    description := j.description, location := j.location, tags := j.tags,
    posted_at := j.posted_at,
    match_score := none, match_reasoning := none, notified := 0 }

/-- Models `insertJob` (`database.ts`): `INSERT OR IGNORE`, returning
`result.changes > 0` — `true` iff the row was newly created. -/
def insertJob (j : NewJob) (st : DBState) : Bool × DBState :=
  if hasKey st j.source j.external_id then (false, st)
  else (true,
    { st with jobs := st.jobs ++ [freshRow j st.nextId], nextId := st.nextId + 1 })

/-- Models `getUnanalyzedJobs`: `SELECT * FROM jobs WHERE match_score IS NULL`. -/
def getUnanalyzedJobs (st : DBState) : List JobRow :=
  st.jobs.filter (fun j => j.match_score = none)

/-- Models `updateJobAnalysis`: `UPDATE jobs SET match_score = ?, match_reasoning = ? WHERE id = ?`. -/
def updateJobAnalysis (id : Nat) (score : Int) (reasoning : String) (st : DBState) : DBState :=
  { st with jobs := st.jobs.map (fun j =>
      if j.id = id then
        { j with match_score := some score, match_reasoning := some reasoning }
      else j) }

/-- The `ORDER BY match_score DESC` sort key (`NULL` rows are filtered out
before sorting, so the default is irrelevant). -/
def scoreKey (j : JobRow) : Int := j.match_score.getD 0

/-- Descending-score order used by the notification query. -/
def scoreDesc (a b : JobRow) : Prop := scoreKey b ≤ scoreKey a

instance : DecidableRel scoreDesc := fun a b =>
  inferInstanceAs (Decidable (scoreKey b ≤ scoreKey a))

instance : IsTotal JobRow scoreDesc :=
  ⟨fun a b => (le_total (scoreKey b) (scoreKey a)).imp id id⟩

instance : IsTrans JobRow scoreDesc :=
  ⟨fun _ _ _ h1 h2 => le_trans h2 h1⟩

/-- Models `getUnnotifiedJobs`: `SELECT * FROM jobs WHERE notified = 0 AND
match_score IS NOT NULL AND match_score >= ? ORDER BY match_score DESC`. -/
def getUnnotifiedJobs (minScore : Int) (st : DBState) : List JobRow :=
  List.insertionSort scoreDesc
    (st.jobs.filter (fun j =>
      j.notified = 0 && (match j.match_score with
        | some s => minScore ≤ s
        | none => false)))

/-- Models `markNotified`: `UPDATE jobs SET notified = 1 WHERE id = ?`. -/
def markNotified (id : Nat) (st : DBState) : DBState :=
  { st with jobs := st.jobs.map (fun j =>
      if j.id = id then { j with notified := 1 } else j) }

/-- Models `registerChat`: `INSERT OR REPLACE INTO bot_chats (chat_id, active) VALUES (?, 1)`. -/
def registerChat (chatId : Int) (st : DBState) : DBState :=
  if st.chats.any (fun c => c.chat_id = chatId) then
    { st with chats := st.chats.map (fun c =>
        if c.chat_id = chatId then { c with active := true } else c) }
  else
    { st with chats := st.chats ++ [{ chat_id := chatId, active := true }] }

/-- Models `deactivateChat`: `UPDATE bot_chats SET active = 0 WHERE chat_id = ?`. -/
def deactivateChat (chatId : Int) (st : DBState) : DBState :=
  { st with chats := st.chats.map (fun c =>
      if c.chat_id = chatId then { c with active := false } else c) }

/-- Models `getActiveChats`: `SELECT chat_id FROM bot_chats WHERE active = 1`. -/
def getActiveChats (st : DBState) : List Int :=
  (st.chats.filter (fun c => c.active)).map (fun c => c.chat_id)

/-! ### The OpenAI retry wrapper (`callWithRetry` in the analyzer) -/

/-- The parsed `{score, reasoning}` result of a successful analysis call. -/
structure AnalysisResult where
  score : Int
  reasoning : String
deriving DecidableEq, Repr

/-- The outcome of one underlying API attempt: success, an `APIError` with
status 429 (whose `code` may be `insufficient_quota`), or any other thrown
error (non-429 API error, empty response, malformed JSON). -/
inductive APIResponse where
  | ok (r : AnalysisResult)
  | rateLimited (insufficientQuota : Bool)
  | otherError
deriving DecidableEq, Repr

/-- What `callWithRetry` delivers to its caller: a result, a thrown
`QuotaExhaustedError`, or any other propagated error. -/
inductive CallResult where
  | ok (r : AnalysisResult)
  | quotaExhausted
  | error
deriving DecidableEq, Repr

def MAX_RETRIES : Nat := 2

def RETRY_BASE_MS : Nat := 3000

/-- The observable trace of `callWithRetry`: final outcome, how many times the
wrapped function was invoked, and the backoff delays slept between attempts. -/
structure RetryTrace where
  result : CallResult
  calls : Nat
  delays : List Nat
deriving DecidableEq, Repr

/-- The `for (let attempt = 0; attempt <= MAX_RETRIES; attempt++)` loop of
`callWithRetry`; `fuel` counts the remaining loop iterations. -/
def attemptLoop (fn : Nat → APIResponse) : Nat → Nat → RetryTrace
  | _, 0 => ⟨.error, 0, []⟩
  | attempt, fuel + 1 =>
    match fn attempt with
    | .ok r => ⟨.ok r, 1, []⟩
    | .rateLimited true => ⟨.quotaExhausted, 1, []⟩
    | .rateLimited false =>
      if attempt < MAX_RETRIES then
        let d := RETRY_BASE_MS * 2 ^ attempt
        let t := attemptLoop fn (attempt + 1) fuel
        ⟨t.result, t.calls + 1, d :: t.delays⟩
      else ⟨.error, 1, []⟩
    | .otherError => ⟨.error, 1, []⟩

/-- Models `callWithRetry fn`, where `fn attempt` is the behaviour of the wrapped
OpenAI call on the given attempt number. -/
def callWithRetry (fn : Nat → APIResponse) : RetryTrace :=
  attemptLoop fn 0 (MAX_RETRIES + 1)

/-! ### The orchestrated search cycle (`runSearchCycle` in the scheduler) -/

/-- One configured site together with its external behaviour for this cycle:
whether a parser is registered (`getParser`) and what `parser.search`
returns — a list of postings, or a thrown error message. -/
structure SiteSpec where
  name : String
  enabled : Bool
  hasParser : Bool
  fetch : Except String (List NewJob)

/-- The configuration slice `runSearchCycle` reads. -/
structure Config where
  sites : List SiteSpec
  minMatchScore : Int

/-- External behaviour of the analysis and notification stages: per job id the
attempt-indexed API responses, whether the Telegram bot handle is set, and
whether a `sendMessage` to a given chat succeeds. -/
structure Env where
  resp : Nat → Nat → APIResponse
  botPresent : Bool
  send : Nat → Int → Bool

/-- The per-site sub-report (`SiteReport` in the scheduler). -/
structure SiteReport where
  site : String
  fetched : Nat
  newJobs : Nat
  duplicates : Nat
  error : Option String
deriving DecidableEq, Repr

/-- The cycle report (`SearchReport`), without the wall-clock `durationMs`. -/
structure SearchReport where
  sites : List SiteReport
  totalFetched : Nat
  totalNew : Nat
  totalDuplicates : Nat
  analyzed : Nat
  analysisFailed : Nat
  quotaExhausted : Bool
  notified : Nat
deriving DecidableEq, Repr

/-- The inner insert loop of stage 1: inserts each fetched posting, counting
new rows and duplicates. -/
def insertAll (jobs : List NewJob) (st : DBState) : Nat × Nat × DBState :=
  match jobs with
  | [] => (0, 0, st)
  | j :: rest =>
    let p := insertJob j st
    let q := insertAll rest p.2
    if p.1 then (q.1 + 1, q.2.1, q.2.2) else (q.1, q.2.1 + 1, q.2.2)

/-- Stage 1 for one enabled site: missing parser, thrown fetch error (caught,
recorded, state untouched), or successful fetch followed by the insert loop. -/
def fetchSite (site : SiteSpec) (st : DBState) : SiteReport × DBState :=
  if site.hasParser then
    match site.fetch with
    | .error msg =>
      ({ site := site.name, fetched := 0, newJobs := 0, duplicates := 0,
         error := some msg }, st)
    | .ok jobs =>
      let q := insertAll jobs st
      ({ site := site.name, fetched := jobs.length, newJobs := q.1,
         duplicates := q.2.1, error := none }, q.2.2)
  else
    ({ site := site.name, fetched := 0, newJobs := 0, duplicates := 0,
       error := some "No parser registered" }, st)

/-- Stage 1 over the list of enabled sites, accumulating the sub-reports. -/
def fetchStage (sites : List SiteSpec) (st : DBState) : List SiteReport × DBState :=
  match sites with
  | [] => ([], st)
  | s :: rest =>
    let p := fetchSite s st
    let q := fetchStage rest p.2
    (p.1 :: q.1, q.2)

/-- The accumulated outcome of stage 2. -/
structure AnalyzeOut where
  analyzed : Nat
  failed : Nat
  quota : Bool
  state : DBState
deriving Repr

/-- Stage 2: analyze each unscored job in turn; success records the score,
`QuotaExhaustedError` sets the flag and breaks, any other error increments
the failure count and continues. -/
def analyzeLoop (env : Env) : List JobRow → DBState → AnalyzeOut
  | [], st => ⟨0, 0, false, st⟩
  | j :: rest, st =>
    match (callWithRetry (env.resp j.id)).result with
    | .ok r =>
      let out := analyzeLoop env rest (updateJobAnalysis j.id r.score r.reasoning st)
      ⟨out.analyzed + 1, out.failed, out.quota, out.state⟩
    | .quotaExhausted => ⟨0, 0, true, st⟩
    | .error =>
      let out := analyzeLoop env rest st
      ⟨out.analyzed, out.failed + 1, out.quota, out.state⟩

/-- The per-chat send loop of `notifyJob` (`bot.ts`): each successful
`sendMessage` is followed by `markNotified`; a failed send is logged and the
loop continues. -/
def sendLoop (env : Env) (jobId : Nat) (chats : List Int) (st : DBState) : DBState :=
  match chats with
  | [] => st
  | c :: rest =>
    if env.send jobId c then sendLoop env jobId rest (markNotified jobId st)
    else sendLoop env jobId rest st

/-- Models `notifyJob` (`bot.ts`): returns immediately when the bot handle is unset
or no chat is active; otherwise runs the send loop over the active chats. -/
def notifyJob (env : Env) (j : JobRow) (st : DBState) : DBState :=
  if env.botPresent then
    let chats := getActiveChats st
    if chats.isEmpty then st else sendLoop env j.id chats st
  else st

/-- Stage 3: dispatch each eligible posting; `notifyJob` never throws here, so
the report's notified counter is incremented for every posting dispatched. -/
def notifyStage (env : Env) (jobs : List JobRow) (st : DBState) : Nat × DBState :=
  match jobs with
  | [] => (0, st)
  | j :: rest =>
    let st1 := notifyJob env j st
    let q := notifyStage env rest st1
    (q.1 + 1, q.2)

/-- Sum of a per-site counter over the sub-reports. -/
def sumF (f : SiteReport → Nat) (rs : List SiteReport) : Nat :=
  (rs.map f).sum

/-- Models `runSearchCycle`: fetch from every enabled site, analyze the unscored
jobs, notify about unnotified jobs at or above the threshold; returns the
report and the final store state. -/
def runSearchCycle (cfg : Config) (env : Env) (st : DBState) : SearchReport × DBState :=
  let enabled := cfg.sites.filter (fun s => s.enabled)
  let f := fetchStage enabled st
  let unanalyzed := getUnanalyzedJobs f.2
  let a := analyzeLoop env unanalyzed f.2
  let toNotify := getUnnotifiedJobs cfg.minMatchScore a.state
  let n := notifyStage env toNotify a.state
  ({ sites := f.1,
     totalFetched := sumF (fun r => r.fetched) f.1,
     totalNew := sumF (fun r => r.newJobs) f.1,
     totalDuplicates := sumF (fun r => r.duplicates) f.1,
     analyzed := a.analyzed, analysisFailed := a.failed,
     quotaExhausted := a.quota, notified := n.1 }, n.2)

/-- The operations the orchestrator and bot perform against the store between
and during cycles. -/
inductive Op where
  | cycle (cfg : Config) (env : Env)
  | regChat (chatId : Int)
  | deactChat (chatId : Int)

def applyOp (op : Op) (st : DBState) : DBState :=
  match op with
  | .cycle cfg env => (runSearchCycle cfg env st).2
  | .regChat c => registerChat c st
  | .deactChat c => deactivateChat c st

def applyOps (ops : List Op) (st : DBState) : DBState :=
  ops.foldl (fun s op => applyOp op s) st

/-- Well-formedness of a store state: row ids are distinct and below the
autoincrement counter (sqlite's `INTEGER PRIMARY KEY AUTOINCREMENT`). -/
def WF (st : DBState) : Prop :=
  (st.jobs.map (fun j => j.id)).Nodup ∧ ∀ j ∈ st.jobs, j.id < st.nextId

/-! ### Helper lemmas -/

theorem attemptLoop_calls_le (fn : Nat → APIResponse) :
    ∀ fuel attempt, (attemptLoop fn attempt fuel).calls ≤ fuel := by
  intro fuel
  induction fuel with
  | zero => intro attempt; simp [attemptLoop]
  | succ n ih =>
    intro attempt
    cases h : fn attempt with
    | ok r => simp [attemptLoop, h]
    | rateLimited q =>
      cases q with
      | true => simp [attemptLoop, h]
      | false =>
        simp only [attemptLoop, h]
        split
        · simpa using Nat.succ_le_succ (ih (attempt + 1))
        · simp
    | otherError => simp [attemptLoop, h]

theorem fetchSite_site (site : SiteSpec) (st : DBState) :
    (fetchSite site st).1.site = site.name := by
  cases hp : site.hasParser <;> cases hf : site.fetch <;> simp [fetchSite, hp, hf]

theorem fetchStage_sites (sites : List SiteSpec) (st : DBState) :
    (fetchStage sites st).1.map (fun r => r.site) = sites.map (fun s => s.name) := by
  induction sites generalizing st with
  | nil => rfl
  | cons s rest ih => simp [fetchStage, fetchSite_site, ih]

theorem fetchStage_empty (sites : List SiteSpec) (st : DBState)
    (h : ∀ s ∈ sites, s.hasParser = true ∧ s.fetch = .ok []) :
    fetchStage sites st =
      (sites.map (fun s => ⟨s.name, 0, 0, 0, none⟩), st) := by
  induction sites generalizing st with
  | nil => rfl
  | cons s rest ih =>
    obtain ⟨hp, hf⟩ := h s (List.mem_cons_self s rest)
    have hrest : ∀ x ∈ rest, x.hasParser = true ∧ x.fetch = .ok [] :=
      fun x hx => h x (List.mem_cons_of_mem s hx)
    simp [fetchStage, fetchSite, hp, hf, insertAll, ih st hrest]

theorem notifyStage_no_bot (env : Env) (hbot : env.botPresent = false) :
    ∀ (jobs : List JobRow) (st : DBState), notifyStage env jobs st = (jobs.length, st) := by
  intro jobs
  induction jobs with
  | nil => intro st; rfl
  | cons j rest ih =>
    intro st
    simp [notifyStage, notifyJob, hbot, ih]

theorem updateJobAnalysis_frame (id : Nat) (s : Int) (v : String) (st : DBState)
    (j : JobRow) (hj : j ∈ st.jobs) (hne : j.id ≠ id) :
    j ∈ (updateJobAnalysis id s v st).jobs := by
  show j ∈ st.jobs.map (fun x => if x.id = id then
    { x with match_score := some s, match_reasoning := some v } else x)
  rw [List.mem_map]
  exact ⟨j, hj, by simp [hne]⟩

theorem analyzeLoop_frame (env : Env) :
    ∀ (pending : List JobRow) (st : DBState) (j : JobRow),
      j ∈ st.jobs → j.id ∉ pending.map (fun x => x.id) →
      j ∈ (analyzeLoop env pending st).state.jobs := by
  intro pending
  induction pending with
  | nil => intro st j hj _; exact hj
  | cons p rest ih =>
    intro st j hj hid
    simp only [List.map_cons, List.mem_cons, not_or] at hid
    obtain ⟨hne, hrest⟩ := hid
    cases hres : (callWithRetry (env.resp p.id)).result with
    | ok r =>
      simp only [analyzeLoop, hres]
      exact ih _ j (updateJobAnalysis_frame p.id r.score r.reasoning st j hj hne) hrest
    | quotaExhausted =>
      simp only [analyzeLoop, hres]
      exact hj
    | error =>
      simp only [analyzeLoop, hres]
      exact ih st j hj hrest

theorem markNotified_sets (id : Nat) (st : DBState) :
    ∀ row ∈ (markNotified id st).jobs, row.id = id → row.notified = 1 := by
  intro row hrow hid
  unfold markNotified at hrow
  simp only [List.mem_map] at hrow
  obtain ⟨x, hx, hxe⟩ := hrow
  by_cases h : x.id = id
  · rw [← hxe]
    simp [h]
  · rw [← hxe] at hid
    rw [if_neg h] at hid
    exact absurd hid h

theorem sendLoop_preserves (env : Env) (id : Nat) :
    ∀ (chats : List Int) (st : DBState),
      (∀ row ∈ st.jobs, row.id = id → row.notified = 1) →
      ∀ row ∈ (sendLoop env id chats st).jobs, row.id = id → row.notified = 1 := by
  intro chats
  induction chats with
  | nil => intro st h; exact h
  | cons c rest ih =>
    intro st h
    cases hs : env.send id c with
    | true =>
      simp only [sendLoop, hs, if_true]
      exact ih _ (markNotified_sets id st)
    | false =>
      simp only [sendLoop, hs, Bool.false_eq_true, if_false]
      exact ih st h

theorem sendLoop_marks (env : Env) (id : Nat) :
    ∀ (chats : List Int) (st : DBState),
      (∃ c ∈ chats, env.send id c = true) →
      ∀ row ∈ (sendLoop env id chats st).jobs, row.id = id → row.notified = 1 := by
  intro chats
  induction chats with
  | nil => intro st h; exact absurd h (by simp)
  | cons c rest ih =>
    intro st h
    cases hs : env.send id c with
    | true =>
      simp only [sendLoop, hs, if_true]
      exact sendLoop_preserves env id rest _ (markNotified_sets id st)
    | false =>
      obtain ⟨c', hc', hsend⟩ := h
      rcases List.mem_cons.mp hc' with rfl | hmem
      · rw [hs] at hsend
        exact absurd hsend (by simp)
      · simp only [sendLoop, hs, Bool.false_eq_true, if_false]
        exact ih st ⟨c', hmem, hsend⟩

theorem sendLoop_all_fail (env : Env) (id : Nat) :
    ∀ (chats : List Int) (st : DBState),
      (∀ c, env.send id c = false) → sendLoop env id chats st = st := by
  intro chats
  induction chats with
  | nil => intro st _; rfl
  | cons c rest ih =>
    intro st h
    simp only [sendLoop, h c, Bool.false_eq_true, if_false]
    exact ih st h

/-- Per-row evolution respected by every store operation: the id and the
natural key never change, a set score (and its reasoning) is kept, and a set
notified flag is kept. -/
def rowStep (x y : JobRow) : Prop :=
  y.id = x.id ∧ y.source = x.source ∧ y.external_id = x.external_id ∧
  (∀ v, x.match_score = some v →
    y.match_score = some v ∧ y.match_reasoning = x.match_reasoning) ∧
  (x.notified = 1 → y.notified = 1)

theorem rowStep_refl (x : JobRow) : rowStep x x :=
  ⟨rfl, rfl, rfl, fun _ hv => ⟨hv, rfl⟩, fun h => h⟩

theorem rowStep_trans {x y z : JobRow} (h1 : rowStep x y) (h2 : rowStep y z) :
    rowStep x z := by
  obtain ⟨hi1, hs1, he1, hm1, hn1⟩ := h1
  obtain ⟨hi2, hs2, he2, hm2, hn2⟩ := h2
  refine ⟨hi2.trans hi1, hs2.trans hs1, he2.trans he1, ?_, fun h => hn2 (hn1 h)⟩
  intro v hv
  obtain ⟨hy, hyr⟩ := hm1 v hv
  obtain ⟨hz, hzr⟩ := hm2 v hy
  exact ⟨hz, hzr.trans hyr⟩

/-- Every stored row survives, in the `rowStep` sense, into the later state. -/
def stateStep (st st' : DBState) : Prop :=
  ∀ x ∈ st.jobs, ∃ y ∈ st'.jobs, rowStep x y

theorem stateStep_refl (st : DBState) : stateStep st st :=
  fun x hx => ⟨x, hx, rowStep_refl x⟩

theorem stateStep_trans {st1 st2 st3 : DBState}
    (h1 : stateStep st1 st2) (h2 : stateStep st2 st3) : stateStep st1 st3 := by
  intro x hx
  obtain ⟨y, hy, hxy⟩ := h1 x hx
  obtain ⟨z, hz, hyz⟩ := h2 y hy
  exact ⟨z, hz, rowStep_trans hxy hyz⟩

theorem stateStep_insertJob (nj : NewJob) (st : DBState) :
    stateStep st (insertJob nj st).2 := by
  unfold insertJob
  split
  · exact stateStep_refl st
  · intro x hx
    exact ⟨x, List.mem_append_left _ hx, rowStep_refl x⟩

theorem stateStep_insertAll (jobs : List NewJob) :
    ∀ st, stateStep st (insertAll jobs st).2.2 := by
  induction jobs with
  | nil => intro st; exact stateStep_refl st
  | cons j rest ih =>
    intro st
    have h := stateStep_trans (stateStep_insertJob j st) (ih (insertJob j st).2)
    simp only [insertAll]
    split <;> exact h

theorem stateStep_fetchSite (site : SiteSpec) (st : DBState) :
    stateStep st (fetchSite site st).2 := by
  unfold fetchSite
  split
  · split
    · exact stateStep_refl st
    · exact stateStep_insertAll _ st
  · exact stateStep_refl st

theorem stateStep_fetchStage (sites : List SiteSpec) :
    ∀ st, stateStep st (fetchStage sites st).2 := by
  induction sites with
  | nil => intro st; exact stateStep_refl st
  | cons s rest ih =>
    intro st
    simp only [fetchStage]
    exact stateStep_trans (stateStep_fetchSite s st) (ih _)

theorem stateStep_update (id : Nat) (s : Int) (v : String) (st : DBState)
    (h : ∀ row ∈ st.jobs, row.id = id → row.match_score = none) :
    stateStep st (updateJobAnalysis id s v st) := by
  intro x hx
  refine ⟨(fun r => if r.id = id then
    { r with match_score := some s, match_reasoning := some v } else r) x,
    List.mem_map_of_mem _ hx, ?_⟩
  by_cases hid : x.id = id
  · simp only [if_pos hid]
    refine ⟨rfl, rfl, rfl, ?_, fun hn => hn⟩
    intro w hw
    rw [h x hx hid] at hw
    simp at hw
  · simp only [if_neg hid]
    exact rowStep_refl x

theorem stateStep_analyzeLoop (env : Env) :
    ∀ (pending : List JobRow) (st : DBState),
      (pending.map (fun x => x.id)).Nodup →
      (∀ p ∈ pending, ∀ row ∈ st.jobs, row.id = p.id → row.match_score = none) →
      stateStep st (analyzeLoop env pending st).state := by
  intro pending
  induction pending with
  | nil => intro st _ _; exact stateStep_refl st
  | cons p rest ih =>
    intro st hnd hcond
    rw [List.map_cons, List.nodup_cons] at hnd
    cases hres : (callWithRetry (env.resp p.id)).result with
    | ok r =>
      simp only [analyzeLoop, hres]
      have h1 : stateStep st (updateJobAnalysis p.id r.score r.reasoning st) :=
        stateStep_update _ _ _ st
          (fun row hrow hid => hcond p (List.mem_cons_self p rest) row hrow hid)
      refine stateStep_trans h1 (ih _ hnd.2 ?_)
      intro p2 hp2 row hrow hid
      obtain ⟨row0, hrow0, hrow0e⟩ := List.mem_map.mp hrow
      by_cases hcase : row0.id = p.id
      · exfalso
        have hrid : row.id = row0.id := by rw [← hrow0e]; simp [hcase]
        have hp : p.id = p2.id := by rw [← hcase, ← hrid, hid]
        refine hnd.1 ?_
        rw [hp]
        exact List.mem_map_of_mem _ hp2
      · have hre : row = row0 := by rw [← hrow0e]; simp [hcase]
        rw [hre]
        refine hcond p2 (List.mem_cons_of_mem p hp2) row0 hrow0 ?_
        rw [← hre]
        exact hid
    | quotaExhausted =>
      simp only [analyzeLoop, hres]
      exact stateStep_refl st
    | error =>
      simp only [analyzeLoop, hres]
      exact ih st hnd.2 (fun p2 hp2 => hcond p2 (List.mem_cons_of_mem p hp2))

theorem stateStep_markNotified (id : Nat) (st : DBState) :
    stateStep st (markNotified id st) := by
  intro x hx
  refine ⟨(fun r => if r.id = id then { r with notified := 1 } else r) x,
    List.mem_map_of_mem _ hx, ?_⟩
  by_cases hid : x.id = id
  · simp only [if_pos hid]
    exact ⟨rfl, rfl, rfl, fun v hv => ⟨hv, rfl⟩, fun _ => rfl⟩
  · simp only [if_neg hid]
    exact rowStep_refl x

theorem stateStep_sendLoop (env : Env) (id : Nat) :
    ∀ (chats : List Int) (st : DBState), stateStep st (sendLoop env id chats st) := by
  intro chats
  induction chats with
  | nil => intro st; exact stateStep_refl st
  | cons c rest ih =>
    intro st
    cases hs : env.send id c with
    | true =>
      simp only [sendLoop, hs, if_true]
      exact stateStep_trans (stateStep_markNotified id st) (ih _)
    | false =>
      simp only [sendLoop, hs, Bool.false_eq_true, if_false]
      exact ih st

theorem stateStep_notifyJob (env : Env) (j : JobRow) (st : DBState) :
    stateStep st (notifyJob env j st) := by
  unfold notifyJob
  by_cases hb : env.botPresent = true
  · simp only [hb, if_true]
    by_cases hc : (getActiveChats st).isEmpty = true
    · simp only [hc, if_true]
      exact stateStep_refl st
    · simp only [hc, if_false]
      exact stateStep_sendLoop env j.id _ st
  · simp only [hb, if_false]
    exact stateStep_refl st

theorem stateStep_notifyStage (env : Env) :
    ∀ (jobs : List JobRow) (st : DBState), stateStep st (notifyStage env jobs st).2 := by
  intro jobs
  induction jobs with
  | nil => intro st; exact stateStep_refl st
  | cons j rest ih =>
    intro st
    simp only [notifyStage]
    exact stateStep_trans (stateStep_notifyJob env j st) (ih _)

theorem WF_map (st : DBState) (g : JobRow → JobRow) (hg : ∀ x, (g x).id = x.id)
    (h : WF st) : WF { st with jobs := st.jobs.map g } := by
  constructor
  · have he : (st.jobs.map g).map (fun x => x.id) = st.jobs.map (fun x => x.id) := by
      rw [List.map_map]
      exact List.map_congr_left (fun x _ => hg x)
    rw [show ({ st with jobs := st.jobs.map g } : DBState).jobs = st.jobs.map g from rfl, he]
    exact h.1
  · intro x hx
    obtain ⟨y, hy, hye⟩ := List.mem_map.mp hx
    show x.id < st.nextId
    rw [← hye, hg y]
    exact h.2 y hy

theorem WF_insertJob (nj : NewJob) (st : DBState) (h : WF st) : WF (insertJob nj st).2 := by
  unfold insertJob
  split
  · exact h
  · constructor
    · show ((st.jobs ++ [freshRow nj st.nextId]).map (fun x => x.id)).Nodup
      rw [List.map_append]
      refine List.Nodup.append h.1 (List.nodup_singleton _) ?_
      intro a ha hb
      obtain ⟨y, hy, hye⟩ := List.mem_map.mp ha
      have hb' : a = st.nextId := List.eq_of_mem_singleton hb
      have := h.2 y hy
      rw [hye, hb'] at this
      exact lt_irrefl _ this
    · intro x hx
      show x.id < st.nextId + 1
      rcases List.mem_append.mp hx with hx | hx
      · exact lt_trans (h.2 x hx) (Nat.lt_succ_self _)
      · rw [List.eq_of_mem_singleton hx]
        exact Nat.lt_succ_self _

theorem WF_insertAll (jobs : List NewJob) :
    ∀ st, WF st → WF (insertAll jobs st).2.2 := by
  induction jobs with
  | nil => intro st h; exact h
  | cons j rest ih =>
    intro st h
    have := ih (insertJob j st).2 (WF_insertJob j st h)
    simp only [insertAll]
    split <;> exact this

theorem WF_fetchSite (site : SiteSpec) (st : DBState) (h : WF st) :
    WF (fetchSite site st).2 := by
  unfold fetchSite
  split
  · split
    · exact h
    · exact WF_insertAll _ st h
  · exact h

theorem WF_fetchStage (sites : List SiteSpec) :
    ∀ st, WF st → WF (fetchStage sites st).2 := by
  induction sites with
  | nil => intro st h; exact h
  | cons s rest ih =>
    intro st h
    simp only [fetchStage]
    exact ih _ (WF_fetchSite s st h)

theorem WF_updateJobAnalysis (id : Nat) (s : Int) (v : String) (st : DBState)
    (h : WF st) : WF (updateJobAnalysis id s v st) :=
  WF_map st _ (fun x => by by_cases hx : x.id = id <;> simp [hx]) h

theorem WF_markNotified (id : Nat) (st : DBState) (h : WF st) :
    WF (markNotified id st) :=
  WF_map st _ (fun x => by by_cases hx : x.id = id <;> simp [hx]) h

theorem WF_analyzeLoop (env : Env) :
    ∀ (pending : List JobRow) (st : DBState), WF st →
      WF (analyzeLoop env pending st).state := by
  intro pending
  induction pending with
  | nil => intro st h; exact h
  | cons p rest ih =>
    intro st h
    cases hres : (callWithRetry (env.resp p.id)).result with
    | ok r =>
      simp only [analyzeLoop, hres]
      exact ih _ (WF_updateJobAnalysis p.id r.score r.reasoning st h)
    | quotaExhausted =>
      simp only [analyzeLoop, hres]
      exact h
    | error =>
      simp only [analyzeLoop, hres]
      exact ih st h

theorem WF_sendLoop (env : Env) (id : Nat) :
    ∀ (chats : List Int) (st : DBState), WF st → WF (sendLoop env id chats st) := by
  intro chats
  induction chats with
  | nil => intro st h; exact h
  | cons c rest ih =>
    intro st h
    cases hs : env.send id c with
    | true =>
      simp only [sendLoop, hs, if_true]
      exact ih _ (WF_markNotified id st h)
    | false =>
      simp only [sendLoop, hs, Bool.false_eq_true, if_false]
      exact ih st h

theorem WF_notifyJob (env : Env) (j : JobRow) (st : DBState) (h : WF st) :
    WF (notifyJob env j st) := by
  unfold notifyJob
  by_cases hb : env.botPresent = true
  · simp only [hb, if_true]
    by_cases hc : (getActiveChats st).isEmpty = true
    · simp only [hc, if_true]
      exact h
    · simp only [hc, if_false]
      exact WF_sendLoop env j.id _ st h
  · simp only [hb, if_false]
    exact h

theorem WF_notifyStage (env : Env) :
    ∀ (jobs : List JobRow) (st : DBState), WF st → WF (notifyStage env jobs st).2 := by
  intro jobs
  induction jobs with
  | nil => intro st h; exact h
  | cons j rest ih =>
    intro st h
    simp only [notifyStage]
    exact ih _ (WF_notifyJob env j st h)

theorem WF_runSearchCycle (cfg : Config) (env : Env) (st : DBState) (h : WF st) :
    WF (runSearchCycle cfg env st).2 := by
  unfold runSearchCycle
  exact WF_notifyStage env _ _ (WF_analyzeLoop env _ _ (WF_fetchStage _ st h))

theorem registerChat_frame (c : Int) (st : DBState) :
    (registerChat c st).jobs = st.jobs ∧ (registerChat c st).nextId = st.nextId := by
  unfold registerChat
  split <;> exact ⟨rfl, rfl⟩

theorem WF_applyOp (op : Op) (st : DBState) (h : WF st) : WF (applyOp op st) := by
  cases op with
  | cycle cfg env => exact WF_runSearchCycle cfg env st h
  | regChat c =>
    constructor
    · show ((registerChat c st).jobs.map (fun j => j.id)).Nodup
      rw [(registerChat_frame c st).1]
      exact h.1
    · show ∀ j ∈ (registerChat c st).jobs, j.id < (registerChat c st).nextId
      rw [(registerChat_frame c st).1, (registerChat_frame c st).2]
      exact h.2
  | deactChat c => exact h

theorem WF_applyOps (ops : List Op) :
    ∀ st, WF st → WF (applyOps ops st) := by
  induction ops with
  | nil => intro st h; exact h
  | cons op rest ih =>
    intro st h
    exact ih (applyOp op st) (WF_applyOp op st h)

/-- In a well-formed state, the rows selected by the unscored query have
pairwise distinct ids, and any stored row sharing an id with a selected row
is that row (hence unscored). -/
theorem unanalyzed_cond (st : DBState) (h : WF st) :
    ((getUnanalyzedJobs st).map (fun x => x.id)).Nodup ∧
    (∀ p ∈ getUnanalyzedJobs st, ∀ row ∈ st.jobs, row.id = p.id →
      row.match_score = none) := by
  constructor
  · exact h.1.sublist (List.Sublist.map _ (List.filter_sublist _))
  · intro p hp row hrow hid
    have hpmem : p ∈ st.jobs := (List.mem_filter.mp hp).1
    have hpscore : p.match_score = none := by
      simpa using (List.mem_filter.mp hp).2
    have := List.inj_on_of_nodup_map h.1 hrow hpmem hid
    rw [this]
    exact hpscore

theorem stateStep_runSearchCycle (cfg : Config) (env : Env) (st : DBState)
    (h : WF st) : stateStep st (runSearchCycle cfg env st).2 := by
  have h1 := stateStep_fetchStage (cfg.sites.filter (fun s => s.enabled)) st
  have hwf1 := WF_fetchStage (cfg.sites.filter (fun s => s.enabled)) st h
  have hcond := unanalyzed_cond _ hwf1
  have h2 := stateStep_analyzeLoop env
    (getUnanalyzedJobs (fetchStage (cfg.sites.filter (fun s => s.enabled)) st).2)
    (fetchStage (cfg.sites.filter (fun s => s.enabled)) st).2 hcond.1 hcond.2
  have h3 := stateStep_notifyStage env
    (getUnnotifiedJobs cfg.minMatchScore
      (analyzeLoop env
        (getUnanalyzedJobs (fetchStage (cfg.sites.filter (fun s => s.enabled)) st).2)
        (fetchStage (cfg.sites.filter (fun s => s.enabled)) st).2).state)
    (analyzeLoop env
      (getUnanalyzedJobs (fetchStage (cfg.sites.filter (fun s => s.enabled)) st).2)
      (fetchStage (cfg.sites.filter (fun s => s.enabled)) st).2).state
  exact stateStep_trans (stateStep_trans h1 h2) h3

theorem stateStep_applyOp (op : Op) (st : DBState) (h : WF st) :
    stateStep st (applyOp op st) := by
  cases op with
  | cycle cfg env => exact stateStep_runSearchCycle cfg env st h
  | regChat c =>
    intro x hx
    refine ⟨x, ?_, rowStep_refl x⟩
    show x ∈ (registerChat c st).jobs
    rw [(registerChat_frame c st).1]
    exact hx
  | deactChat c => exact stateStep_refl st

theorem stateStep_applyOps (ops : List Op) :
    ∀ st, WF st → stateStep st (applyOps ops st) := by
  induction ops with
  | nil => intro st _; exact stateStep_refl st
  | cons op rest ih =>
    intro st h
    exact stateStep_trans (stateStep_applyOp op st h)
      (ih (applyOp op st) (WF_applyOp op st h))

theorem analyzeLoop_quota (env : Env) (jq : JobRow) (post : List JobRow)
    (hq : (callWithRetry (env.resp jq.id)).result = .quotaExhausted) :
    ∀ (pre : List JobRow) (st : DBState),
      (∀ p ∈ pre, ∃ r, (callWithRetry (env.resp p.id)).result = .ok r) →
      (analyzeLoop env (pre ++ jq :: post) st).analyzed = pre.length ∧
      (analyzeLoop env (pre ++ jq :: post) st).failed = 0 ∧
      (analyzeLoop env (pre ++ jq :: post) st).quota = true ∧
      (∀ row ∈ st.jobs, row.id ∉ pre.map (fun x => x.id) →
        row ∈ (analyzeLoop env (pre ++ jq :: post) st).state.jobs) := by
  intro pre
  induction pre with
  | nil =>
    intro st _
    rw [List.nil_append]
    refine ⟨?_, ?_, ?_, ?_⟩ <;> simp only [analyzeLoop, hq, List.length_nil]
    exact fun row hrow _ => hrow
  | cons p rest ih =>
    intro st hok
    obtain ⟨r, hr⟩ := hok p (List.mem_cons_self p rest)
    have hrest := fun x hx => hok x (List.mem_cons_of_mem p hx)
    have key := ih (updateJobAnalysis p.id r.score r.reasoning st) hrest
    simp only [List.cons_append, analyzeLoop, hr]
    refine ⟨?_, key.2.1, key.2.2.1, ?_⟩
    · simp [key.1]
    · intro row hrow hid
      simp only [List.map_cons, List.mem_cons, not_or] at hid
      exact key.2.2.2 row
        (updateJobAnalysis_frame p.id r.score r.reasoning st row hrow hid.1) hid.2

theorem markNotified_idScore (id : Nat) (st : DBState) :
    (markNotified id st).jobs.map (fun x => (x.id, x.match_score)) =
      st.jobs.map (fun x => (x.id, x.match_score)) := by
  show (st.jobs.map _).map _ = _
  rw [List.map_map]
  exact List.map_congr_left (fun x _ => by by_cases h : x.id = id <;> simp [h])

theorem sendLoop_idScore (env : Env) (id : Nat) :
    ∀ (chats : List Int) (st : DBState),
      (sendLoop env id chats st).jobs.map (fun x => (x.id, x.match_score)) =
        st.jobs.map (fun x => (x.id, x.match_score)) := by
  intro chats
  induction chats with
  | nil => intro st; rfl
  | cons c rest ih =>
    intro st
    cases hs : env.send id c with
    | true =>
      simp only [sendLoop, hs, if_true]
      rw [ih, markNotified_idScore]
    | false =>
      simp only [sendLoop, hs, Bool.false_eq_true, if_false]
      exact ih st

theorem notifyJob_idScore (env : Env) (j : JobRow) (st : DBState) :
    (notifyJob env j st).jobs.map (fun x => (x.id, x.match_score)) =
      st.jobs.map (fun x => (x.id, x.match_score)) := by
  unfold notifyJob
  by_cases hb : env.botPresent = true
  · simp only [hb, if_true]
    by_cases hc : (getActiveChats st).isEmpty = true
    · simp only [hc, if_true]
    · simp only [hc, if_false]
      exact sendLoop_idScore env j.id _ st
  · simp only [hb]
    rfl

theorem notifyStage_idScore (env : Env) :
    ∀ (jobs : List JobRow) (st : DBState),
      (notifyStage env jobs st).2.jobs.map (fun x => (x.id, x.match_score)) =
        st.jobs.map (fun x => (x.id, x.match_score)) := by
  intro jobs
  induction jobs with
  | nil => intro st; rfl
  | cons j rest ih =>
    intro st
    simp only [notifyStage]
    rw [ih, notifyJob_idScore]

/-! ### Concrete fixtures -/

/-- A stored posting with a given id, key and score, used in concrete runs. -/
def mkScored (id : Nat) (eid : String) (score : Int) : JobRow :=
  { id := id, external_id := eid, source := "remoteok", title := "Dev",
    company := "Acme", url := "https://jobs.example/x", description := "desc",
    location := "Remote", tags := "[]", posted_at := none,
    match_score := some score, match_reasoning := some "fits", notified := 0 }

/-- Store holding three scored, unnotified postings with scores 40, 55, 70. -/
def exampleState : DBState :=
  ⟨[mkScored 1 "a" 40, mkScored 2 "b" 55, mkScored 3 "c" 70], 4, []⟩

/-- Attempt behaviour that is rate limited on the first two attempts and
succeeds on the third. -/
def fnC3 : Nat → APIResponse :=
  fun n => if n < 2 then .rateLimited false else .ok ⟨80, "strong match"⟩

/-- The empty store. -/
def st0 : DBState := ⟨[], 0, []⟩

/-- A posting fetched from source `siteB`. -/
def mkFetched (eid : String) : NewJob :=
  ⟨eid, "siteB", "Dev", "Acme", "https://jobs.example/x", "desc", "Remote", "[]", none⟩

/-- Two enabled sites: `siteA` whose fetch throws `"timeout"`, `siteB` whose
fetch returns three fresh postings. -/
def cfgAB : Config :=
  ⟨[⟨"siteA", true, true, .error "timeout"⟩,
    ⟨"siteB", true, true, .ok [mkFetched "b1", mkFetched "b2", mkFetched "b3"]⟩], 50⟩

/-- Environment with failing analysis and no bot. -/
def envAB : Env := ⟨fun _ _ => .otherError, false, fun _ _ => false⟩

/-- One enabled site fetching nothing, one disabled site; threshold 100. -/
def cfgC9 : Config :=
  ⟨[⟨"siteB", true, true, .ok []⟩, ⟨"siteA", false, true, .error "down"⟩], 100⟩

/-- A stored posting that has not been scored yet. -/
def mkUnscored (id : Nat) (eid : String) : JobRow :=
  { mkScored id eid 0 with match_score := none, match_reasoning := none }

/-- Store with one scored unnotified posting and one active chat. -/
def stC5 : DBState := ⟨[mkScored 9 "q" 80], 10, [⟨1, true⟩]⟩

/-- Bot present, but every `sendMessage` fails. -/
def envFailSend : Env := ⟨fun _ _ => .ok ⟨80, "fits"⟩, true, fun _ _ => false⟩

/-- Bot present and every `sendMessage` succeeds. -/
def envOkSend : Env := ⟨fun _ _ => .ok ⟨80, "fits"⟩, true, fun _ _ => true⟩

/-- Store with three unscored postings (ids 0, 1, 2). -/
def stC2 : DBState := ⟨[mkUnscored 0 "u0", mkUnscored 1 "u1", mkUnscored 2 "u2"], 3, []⟩

/-- Analysis succeeds for job ids below 2 and reports quota exhaustion for
job id 2; no bot. -/
def envC2 : Env :=
  ⟨fun id _ => if id < 2 then .ok ⟨60, "ok"⟩ else .rateLimited true, false,
   fun _ _ => false⟩

/-- Configuration with no sites and threshold 50. -/
def cfgE : Config := ⟨[], 50⟩

/-! ### Claims -/

/-- C3: a scoring call is retried at most 2 times (3 attempts total) on a
transient rate limit, with backoff delays of 3000 ms then 6000 ms; rate limit
on the first two attempts followed by success yields exactly 3 calls and the
posting ends scored; a quota-exhausted rate limit raises immediately with no
retry; any other error propagates with no retry. -/
theorem C3_retry_backoff :
    (∀ fn r, fn 0 = APIResponse.rateLimited false →
      fn 1 = APIResponse.rateLimited false → fn 2 = APIResponse.ok r →
      callWithRetry fn = ⟨.ok r, 3, [3000, 6000]⟩) ∧
    (∀ fn, fn 0 = APIResponse.rateLimited true →
      callWithRetry fn = ⟨.quotaExhausted, 1, []⟩) ∧
    (∀ fn, fn 0 = APIResponse.otherError →
      callWithRetry fn = ⟨.error, 1, []⟩) ∧
    (∀ fn, (callWithRetry fn).calls ≤ 3) ∧
    (∀ env (j : JobRow) st r, (callWithRetry (env.resp j.id)).result = .ok r →
      analyzeLoop env [j] st =
        ⟨1, 0, false, updateJobAnalysis j.id r.score r.reasoning st⟩) := by
  refine ⟨?_, ?_, ?_, ?_, ?_⟩
  · intro fn r h0 h1 h2
    simp [callWithRetry, attemptLoop, h0, h1, h2, MAX_RETRIES, RETRY_BASE_MS]
  · intro fn h0
    simp [callWithRetry, attemptLoop, h0]
  · intro fn h0
    simp [callWithRetry, attemptLoop, h0]
  · intro fn
    exact attemptLoop_calls_le fn (MAX_RETRIES + 1) 0
  · intro env j st r h
    simp [analyzeLoop, h]

/-- Witness for C3 at a concrete attempt behaviour. -/
theorem C3_retry_backoff_witness :
    callWithRetry fnC3 = ⟨.ok ⟨80, "strong match"⟩, 3, [3000, 6000]⟩ :=
  C3_retry_backoff.1 fnC3 ⟨80, "strong match"⟩ rfl rfl rfl

/-- C6: the notification-stage query returns exactly the stored postings that
are unnotified, have a score, and score at or above the threshold, sorted by
descending score; on postings scored 40, 55, 70 with threshold 50 it returns
the 70-posting then the 55-posting and nothing else. -/
theorem C6_threshold_query :
    (∀ st minScore, List.Sorted scoreDesc (getUnnotifiedJobs minScore st)) ∧
    (∀ st minScore (j : JobRow), j ∈ getUnnotifiedJobs minScore st ↔
      j ∈ st.jobs ∧ j.notified = 0 ∧ ∃ s, j.match_score = some s ∧ minScore ≤ s) ∧
    getUnnotifiedJobs 50 exampleState = [mkScored 3 "c" 70, mkScored 2 "b" 55] := by
  refine ⟨?_, ?_, ?_⟩
  · intro st minScore
    exact List.sorted_insertionSort scoreDesc _
  · intro st minScore j
    simp only [getUnnotifiedJobs, List.mem_insertionSort, List.mem_filter,
      Bool.and_eq_true, decide_eq_true_eq]
    constructor
    · rintro ⟨hmem, h0, hs⟩
      refine ⟨hmem, h0, ?_⟩
      cases hms : j.match_score with
      | none => rw [hms] at hs; exact absurd hs (by simp)
      | some s =>
        rw [hms] at hs
        exact ⟨s, rfl, by simpa using hs⟩
    · rintro ⟨hmem, h0, s, hms, hle⟩
      exact ⟨hmem, h0, by rw [hms]; simpa using hle⟩
  · decide

/-- C1: a fetch failure of one enabled source is caught and recorded as that
source's error with the store untouched; every enabled source still gets a
sub-report entry in order (subsequent sources run, the report is complete);
concretely, with source A failing with "timeout" and source B returning 3 new
postings, the report shows A's error, B's newJobs = 3 and totalNew = 3. -/
theorem C1_source_failure_isolated :
    (∀ site st msg, site.hasParser = true → site.fetch = .error msg →
      fetchSite site st =
        ({ site := site.name, fetched := 0, newJobs := 0, duplicates := 0,
           error := some msg }, st)) ∧
    (∀ cfg env st,
      (runSearchCycle cfg env st).1.sites.map (fun r => r.site) =
        (cfg.sites.filter (fun s => s.enabled)).map (fun s => s.name)) ∧
    ((runSearchCycle cfgAB envAB st0).1.sites =
       [⟨"siteA", 0, 0, 0, some "timeout"⟩, ⟨"siteB", 3, 3, 0, none⟩] ∧
     (runSearchCycle cfgAB envAB st0).1.totalNew = 3) := by
  refine ⟨?_, ?_, ?_, ?_⟩
  · intro site st msg hp hf
    simp [fetchSite, hp, hf]
  · intro cfg env st
    simp only [runSearchCycle]
    exact fetchStage_sites _ _
  · decide
  · decide

/-- Witness for C1 at a concrete failing source. -/
theorem C1_source_failure_isolated_witness :
    fetchSite ⟨"siteA", true, true, .error "timeout"⟩ st0 =
      ({ site := "siteA", fetched := 0, newJobs := 0, duplicates := 0,
         error := some "timeout" }, st0) :=
  C1_source_failure_isolated.1 ⟨"siteA", true, true, .error "timeout"⟩ st0 "timeout" rfl rfl

/-- C9: a cycle in which every enabled source fetches no data, the store has
no unscored posting and no posting is eligible for notification returns a
report with every counter zero and leaves the store unchanged. -/
theorem C9_idempotent_empty_cycle (cfg : Config) (env : Env) (st : DBState)
    (hsites : ∀ s ∈ cfg.sites, s.enabled = true → s.hasParser = true ∧ s.fetch = .ok [])
    (hun : getUnanalyzedJobs st = [])
    (hel : getUnnotifiedJobs cfg.minMatchScore st = []) :
    (runSearchCycle cfg env st).2 = st ∧
    (∀ r ∈ (runSearchCycle cfg env st).1.sites,
       r.fetched = 0 ∧ r.newJobs = 0 ∧ r.duplicates = 0) ∧
    (runSearchCycle cfg env st).1.totalFetched = 0 ∧
    (runSearchCycle cfg env st).1.totalNew = 0 ∧
    (runSearchCycle cfg env st).1.totalDuplicates = 0 ∧
    (runSearchCycle cfg env st).1.analyzed = 0 ∧
    (runSearchCycle cfg env st).1.analysisFailed = 0 ∧
    (runSearchCycle cfg env st).1.quotaExhausted = false ∧
    (runSearchCycle cfg env st).1.notified = 0 := by
  have hstage : fetchStage (cfg.sites.filter (fun s => s.enabled)) st =
      ((cfg.sites.filter (fun s => s.enabled)).map (fun s => ⟨s.name, 0, 0, 0, none⟩), st) := by
    refine fetchStage_empty _ _ ?_
    intro s hs
    rw [List.mem_filter] at hs
    exact hsites s hs.1 hs.2
  have hzero : ∀ (f : SiteReport → Nat), (∀ name, f ⟨name, 0, 0, 0, none⟩ = 0) →
      sumF f ((cfg.sites.filter (fun s => s.enabled)).map
        (fun s => ⟨s.name, 0, 0, 0, none⟩)) = 0 := by
    intro f hf
    unfold sumF
    rw [List.map_map]
    refine List.sum_eq_zero ?_
    intro x hx
    rw [List.mem_map] at hx
    obtain ⟨s, _, hs⟩ := hx
    rw [← hs]
    exact hf s.name
  refine ⟨?_, ?_, ?_, ?_, ?_, ?_, ?_, ?_, ?_⟩
  · simp only [runSearchCycle, hstage, hun, hel, analyzeLoop, notifyStage]
  · simp only [runSearchCycle, hstage]
    intro r hr
    rw [List.mem_map] at hr
    obtain ⟨s, _, hs⟩ := hr
    rw [← hs]
    exact ⟨rfl, rfl, rfl⟩
  · simp only [runSearchCycle, hstage]
    exact hzero _ (fun _ => rfl)
  · simp only [runSearchCycle, hstage]
    exact hzero _ (fun _ => rfl)
  · simp only [runSearchCycle, hstage]
    exact hzero _ (fun _ => rfl)
  · simp only [runSearchCycle, hstage, hun, analyzeLoop]
  · simp only [runSearchCycle, hstage, hun, analyzeLoop]
  · simp only [runSearchCycle, hstage, hun, analyzeLoop]
  · simp only [runSearchCycle, hstage, hun, hel, analyzeLoop, notifyStage]

/-- Witness for C9: one empty-fetching enabled site over a fully scored store
with threshold 100. -/
theorem C9_idempotent_empty_cycle_witness :
    (runSearchCycle cfgC9 envAB exampleState).2 = exampleState ∧
    (runSearchCycle cfgC9 envAB exampleState).1.totalNew = 0 ∧
    (runSearchCycle cfgC9 envAB exampleState).1.notified = 0 := by
  have hsites : ∀ s ∈ cfgC9.sites, s.enabled = true →
      s.hasParser = true ∧ s.fetch = Except.ok [] := by
    intro s hs he
    simp only [cfgC9, List.mem_cons, List.not_mem_nil, or_false] at hs
    rcases hs with rfl | rfl
    · exact ⟨rfl, rfl⟩
    · exact absurd he (by simp)
  have h := C9_idempotent_empty_cycle cfgC9 envAB exampleState
    hsites (by decide) (by decide)
  exact ⟨h.1, h.2.2.2.1, h.2.2.2.2.2.2.2.2⟩

/-- C10: when the bot handle is unset (or no chat is active) `notifyJob`
performs no send and leaves the store unchanged, yet the cycle's notified
counter still counts every dispatched posting — so the postings counted as
notified are exactly those still eligible in the resulting store. -/
theorem C10_notified_counter_without_recipients :
    (∀ env (j : JobRow) st, env.botPresent = false → notifyJob env j st = st) ∧
    (∀ env (j : JobRow) st, getActiveChats st = [] → notifyJob env j st = st) ∧
    (∀ cfg env st, env.botPresent = false →
      (runSearchCycle cfg env st).1.notified =
        (getUnnotifiedJobs cfg.minMatchScore (runSearchCycle cfg env st).2).length) := by
  refine ⟨?_, ?_, ?_⟩
  · intro env j st hbot
    simp [notifyJob, hbot]
  · intro env j st hchats
    simp [notifyJob, hchats]
  · intro cfg env st hbot
    simp only [runSearchCycle, notifyStage_no_bot env hbot]

/-- Witness for C10: a no-sites cycle over a store with two eligible postings
and no bot reports them as notified while leaving them eligible. -/
theorem C10_notified_counter_without_recipients_witness :
    (runSearchCycle ⟨[], 50⟩ envAB exampleState).1.notified =
      (getUnnotifiedJobs 50 (runSearchCycle ⟨[], 50⟩ envAB exampleState).2).length ∧
    notifyJob envAB (mkScored 3 "c" 70) exampleState = exampleState :=
  ⟨C10_notified_counter_without_recipients.2.2 ⟨[], 50⟩ envAB exampleState rfl,
   C10_notified_counter_without_recipients.1 envAB (mkScored 3 "c" 70) exampleState rfl⟩

/-- C7: a scoring failure that is not quota exhaustion increments the
analysis-failed count, leaves the store state exactly as the remaining
postings leave it (no score recorded for the failing posting), and the loop
continues; the failing posting stays selectable by the unscored query. -/
theorem C7_non_quota_failure (env : Env) (j : JobRow) (rest : List JobRow) (st : DBState)
    (hres : (callWithRetry (env.resp j.id)).result = .error) :
    (analyzeLoop env (j :: rest) st).failed = (analyzeLoop env rest st).failed + 1 ∧
    (analyzeLoop env (j :: rest) st).analyzed = (analyzeLoop env rest st).analyzed ∧
    (analyzeLoop env (j :: rest) st).state = (analyzeLoop env rest st).state ∧
    (j ∈ st.jobs → j.match_score = none → j.id ∉ rest.map (fun x => x.id) →
      j ∈ getUnanalyzedJobs (analyzeLoop env (j :: rest) st).state) := by
  refine ⟨?_, ?_, ?_, ?_⟩
  · simp only [analyzeLoop, hres]
  · simp only [analyzeLoop, hres]
  · simp only [analyzeLoop, hres]
  · intro hj hscore hid
    simp only [analyzeLoop, hres]
    have hmem := analyzeLoop_frame env rest st j hj hid
    unfold getUnanalyzedJobs
    rw [List.mem_filter]
    exact ⟨hmem, by simp [hscore]⟩

/-- Witness for C7 at a concrete failing analysis. -/
theorem C7_non_quota_failure_witness :
    (analyzeLoop envAB [mkUnscored 7 "z"] ⟨[mkUnscored 7 "z"], 8, []⟩).failed = 1 ∧
    mkUnscored 7 "z" ∈
      getUnanalyzedJobs (analyzeLoop envAB [mkUnscored 7 "z"] ⟨[mkUnscored 7 "z"], 8, []⟩).state := by
  have h := C7_non_quota_failure envAB (mkUnscored 7 "z") [] ⟨[mkUnscored 7 "z"], 8, []⟩ rfl
  refine ⟨?_, h.2.2.2 (by decide) rfl (by decide)⟩
  rw [h.1]
  rfl

/-- C5 counterexample: with the bot present and exactly one active chat whose
send fails, `notifyJob` leaves the store unchanged — the posting is not
marked notified even though a send was attempted, and it stays eligible for a
later cycle, contradicting the claimed at-least-attempted semantics. -/
theorem C5_counterexample :
    envFailSend.botPresent = true ∧
    getActiveChats stC5 = [1] ∧
    notifyJob envFailSend (mkScored 9 "q" 80) stC5 = stC5 ∧
    ¬ (∃ j ∈ (notifyJob envFailSend (mkScored 9 "q" 80) stC5).jobs, j.notified = 1) ∧
    getUnnotifiedJobs 50 (notifyJob envFailSend (mkScored 9 "q" 80) stC5) =
      [mkScored 9 "q" 80] := by
  refine ⟨rfl, rfl, ?_, ?_, ?_⟩ <;> decide

/-- C5 amended: the notified flag is set by each successful individual send —
a failed send to one recipient does not abort the remaining recipients and
does not prevent a successful send from setting the flag — but a posting all
of whose sends fail is not marked notified and the store is left unchanged,
so it is re-attempted in a later cycle. -/
theorem C5_notified_after_successful_send (env : Env) (j : JobRow) (st : DBState) :
    ((∀ c, env.send j.id c = false) → notifyJob env j st = st) ∧
    (env.botPresent = true → (∃ c ∈ getActiveChats st, env.send j.id c = true) →
      ∀ row ∈ (notifyJob env j st).jobs, row.id = j.id → row.notified = 1) ∧
    (∀ id c rest st', env.send id c = false →
      sendLoop env id (c :: rest) st' = sendLoop env id rest st') := by
  refine ⟨?_, ?_, ?_⟩
  · intro hfail
    cases hbot : env.botPresent with
    | false => simp [notifyJob, hbot]
    | true =>
      simp only [notifyJob, hbot, if_true]
      split
      · rfl
      · exact sendLoop_all_fail env j.id _ st hfail
  · intro hbot hex
    obtain ⟨c, hc, hsend⟩ := hex
    have hne : getActiveChats st ≠ [] := List.ne_nil_of_mem hc
    simp only [notifyJob, hbot, if_true, List.isEmpty_iff]
    rw [if_neg hne]
    exact sendLoop_marks env j.id _ st ⟨c, hc, hsend⟩
  · intro id c rest st' hfail
    simp only [sendLoop, hfail, Bool.false_eq_true, if_false]

/-- Witness for the amended C5: all sends failing leaves the store unchanged;
a succeeding send marks the posting. -/
theorem C5_notified_after_successful_send_witness :
    notifyJob envFailSend (mkScored 9 "q" 80) stC5 = stC5 ∧
    (∀ row ∈ (notifyJob envOkSend (mkScored 9 "q" 80) stC5).jobs,
      row.id = 9 → row.notified = 1) := by
  refine ⟨(C5_notified_after_successful_send envFailSend (mkScored 9 "q" 80) stC5).1
    (fun _ => rfl), ?_⟩
  intro row hrow hid
  exact (C5_notified_after_successful_send envOkSend (mkScored 9 "q" 80) stC5).2.1
    rfl ⟨1, by decide, rfl⟩ row hrow hid

/-- C2: if the scorer reports quota exhaustion on the k-th unscored posting
after the first k-1 succeed, the cycle records analyzed = k-1, sets the
quota-exhausted flag, counts no per-item analysis failure, and leaves the
k-th and all later postings unscored in the final store; a quota-exhausted
response is never retried (a single call, no backoff). -/
theorem C2_quota_short_circuit (cfg : Config) (env : Env) (st : DBState)
    (pre : List JobRow) (jq : JobRow) (post : List JobRow)
    (hwf : WF st)
    (hsplit : getUnanalyzedJobs (fetchStage (cfg.sites.filter (fun s => s.enabled)) st).2 =
      pre ++ jq :: post)
    (hok : ∀ p ∈ pre, ∃ r, (callWithRetry (env.resp p.id)).result = .ok r)
    (hq : (callWithRetry (env.resp jq.id)).result = .quotaExhausted) :
    (runSearchCycle cfg env st).1.analyzed = pre.length ∧
    (runSearchCycle cfg env st).1.quotaExhausted = true ∧
    (runSearchCycle cfg env st).1.analysisFailed = 0 ∧
    (∀ j ∈ jq :: post, ∃ j' ∈ (runSearchCycle cfg env st).2.jobs,
      j'.id = j.id ∧ j'.match_score = none) ∧
    (∀ fn, fn 0 = APIResponse.rateLimited true →
      callWithRetry fn = ⟨.quotaExhausted, 1, []⟩) := by
  have key := analyzeLoop_quota env jq post hq pre
    (fetchStage (cfg.sites.filter (fun s => s.enabled)) st).2 hok
  refine ⟨?_, ?_, ?_, ?_, ?_⟩
  · show (analyzeLoop env
      (getUnanalyzedJobs (fetchStage (cfg.sites.filter (fun s => s.enabled)) st).2)
      (fetchStage (cfg.sites.filter (fun s => s.enabled)) st).2).analyzed = pre.length
    rw [hsplit]
    exact key.1
  · show (analyzeLoop env
      (getUnanalyzedJobs (fetchStage (cfg.sites.filter (fun s => s.enabled)) st).2)
      (fetchStage (cfg.sites.filter (fun s => s.enabled)) st).2).quota = true
    rw [hsplit]
    exact key.2.2.1
  · show (analyzeLoop env
      (getUnanalyzedJobs (fetchStage (cfg.sites.filter (fun s => s.enabled)) st).2)
      (fetchStage (cfg.sites.filter (fun s => s.enabled)) st).2).failed = 0
    rw [hsplit]
    exact key.2.1
  · intro j hj
    have hj1 : j ∈ getUnanalyzedJobs
        (fetchStage (cfg.sites.filter (fun s => s.enabled)) st).2 := by
      rw [hsplit]
      exact List.mem_append_right pre hj
    have hmem : j ∈ (fetchStage (cfg.sites.filter (fun s => s.enabled)) st).2.jobs :=
      (List.mem_filter.mp hj1).1
    have hscore : j.match_score = none := by
      simpa using (List.mem_filter.mp hj1).2
    have hwf1 : WF (fetchStage (cfg.sites.filter (fun s => s.enabled)) st).2 :=
      WF_fetchStage _ st hwf
    have hnd : ((pre ++ jq :: post).map (fun x => x.id)).Nodup := by
      rw [← hsplit]
      exact (unanalyzed_cond _ hwf1).1
    have hid : j.id ∉ pre.map (fun x => x.id) := by
      rw [List.map_append] at hnd
      intro hin
      exact (List.nodup_append.mp hnd).2.2 hin (List.mem_map_of_mem _ hj)
    have hframe := key.2.2.2 j hmem hid
    have hpair : (j.id, j.match_score) ∈
        (analyzeLoop env (pre ++ jq :: post)
          (fetchStage (cfg.sites.filter (fun s => s.enabled)) st).2).state.jobs.map
          (fun x => (x.id, x.match_score)) :=
      List.mem_map_of_mem _ hframe
    have hfin : (j.id, j.match_score) ∈
        (runSearchCycle cfg env st).2.jobs.map (fun x => (x.id, x.match_score)) := by
      show (j.id, j.match_score) ∈
        (notifyStage env
          (getUnnotifiedJobs cfg.minMatchScore
            (analyzeLoop env
              (getUnanalyzedJobs (fetchStage (cfg.sites.filter (fun s => s.enabled)) st).2)
              (fetchStage (cfg.sites.filter (fun s => s.enabled)) st).2).state)
          (analyzeLoop env
            (getUnanalyzedJobs (fetchStage (cfg.sites.filter (fun s => s.enabled)) st).2)
            (fetchStage (cfg.sites.filter (fun s => s.enabled)) st).2).state).2.jobs.map
          (fun x => (x.id, x.match_score))
      rw [notifyStage_idScore, hsplit]
      exact hpair
    obtain ⟨j', hj', hj'e⟩ := List.mem_map.mp hfin
    refine ⟨j', hj', ?_, ?_⟩
    · exact congrArg Prod.fst hj'e
    · have h2 : j'.match_score = j.match_score := congrArg Prod.snd hj'e
      rw [h2]
      exact hscore
  · intro fn h0
    simp [callWithRetry, attemptLoop, h0]

/-- Witness for C2: three unscored postings, success on the first two, quota
exhaustion on the third. -/
theorem C2_quota_short_circuit_witness :
    (runSearchCycle cfgE envC2 stC2).1.analyzed = 2 ∧
    (runSearchCycle cfgE envC2 stC2).1.quotaExhausted = true ∧
    (runSearchCycle cfgE envC2 stC2).1.analysisFailed = 0 ∧
    (∃ j' ∈ (runSearchCycle cfgE envC2 stC2).2.jobs,
      j'.id = 2 ∧ j'.match_score = none) := by
  have hok : ∀ p ∈ [mkUnscored 0 "u0", mkUnscored 1 "u1"],
      ∃ r, (callWithRetry (envC2.resp p.id)).result = .ok r := by
    intro p hp
    simp only [List.mem_cons, List.not_mem_nil, or_false] at hp
    rcases hp with rfl | rfl
    · exact ⟨⟨60, "ok"⟩, rfl⟩
    · exact ⟨⟨60, "ok"⟩, rfl⟩
  have h := C2_quota_short_circuit cfgE envC2 stC2
    [mkUnscored 0 "u0", mkUnscored 1 "u1"] (mkUnscored 2 "u2") []
    ⟨by decide, by decide⟩ rfl hok rfl
  exact ⟨h.1, h.2.1, h.2.2.1,
    h.2.2.2.1 (mkUnscored 2 "u2") (List.mem_cons_self _ _)⟩

/-- C4: inserting a posting with a fresh (source, externalId) key returns true
and appends the row; inserting any posting with an existing key returns false
without error and leaves the store unchanged; a key, once present, is present
after any sequence of orchestrator operations, so a later insertion of the
same key still returns false — and every insert is counted as exactly one of
new or duplicate. -/
theorem C4_dedup_key (nj : NewJob) (st : DBState) :
    (hasKey st nj.source nj.external_id = false →
      insertJob nj st = (true,
        { st with
          jobs := st.jobs ++ [freshRow nj st.nextId]
          nextId := st.nextId + 1 })) ∧
    (hasKey st nj.source nj.external_id = true → insertJob nj st = (false, st)) ∧
    (∀ ops, WF st → hasKey st nj.source nj.external_id = true →
      hasKey (applyOps ops st) nj.source nj.external_id = true) ∧
    (∀ ops (nj' : NewJob), WF st → nj'.source = nj.source →
      nj'.external_id = nj.external_id → hasKey st nj.source nj.external_id = true →
      insertJob nj' (applyOps ops st) = (false, applyOps ops st)) ∧
    (∀ (jobs : List NewJob) (st' : DBState),
      (insertAll jobs st').1 + (insertAll jobs st').2.1 = jobs.length) := by
  have hkey : ∀ ops, WF st → hasKey st nj.source nj.external_id = true →
      hasKey (applyOps ops st) nj.source nj.external_id = true := by
    intro ops hwf hk
    unfold hasKey at hk ⊢
    rw [List.any_eq_true] at hk ⊢
    obtain ⟨x, hx, hxk⟩ := hk
    obtain ⟨y, hy, _, hsrc, heid, _, _⟩ := stateStep_applyOps ops st hwf x hx
    refine ⟨y, hy, ?_⟩
    unfold sameKey at hxk ⊢
    rw [hsrc, heid]
    exact hxk
  refine ⟨?_, ?_, hkey, ?_, ?_⟩
  · intro h
    simp [insertJob, h]
  · intro h
    simp [insertJob, h]
  · intro ops nj' hwf hs he hk
    have hk2 := hkey ops hwf hk
    unfold insertJob
    rw [hs, he, if_pos hk2]
  · intro jobs
    induction jobs with
    | nil => intro st'; rfl
    | cons j rest ih =>
      intro st'
      have := ih (insertJob j st').2
      simp only [insertAll]
      split <;> simp only [List.length_cons] <;> omega

/-- Witness for C4: first insert of a key is new, the second is ignored, and
the key survives an orchestrator operation. -/
theorem C4_dedup_key_witness :
    insertJob (mkFetched "b1") st0 =
      (true, { st0 with
        jobs := st0.jobs ++ [freshRow (mkFetched "b1") 0]
        nextId := 1 }) ∧
    insertJob (mkFetched "b1") (insertJob (mkFetched "b1") st0).2 =
      (false, (insertJob (mkFetched "b1") st0).2) ∧
    hasKey (applyOps [Op.regChat 5] (insertJob (mkFetched "b1") st0).2)
      (mkFetched "b1").source (mkFetched "b1").external_id = true := by
  refine ⟨(C4_dedup_key (mkFetched "b1") st0).1 rfl, ?_, ?_⟩
  · exact (C4_dedup_key (mkFetched "b1") (insertJob (mkFetched "b1") st0).2).2.1
      (by decide)
  · exact (C4_dedup_key (mkFetched "b1") (insertJob (mkFetched "b1") st0).2).2.2.1
      [Op.regChat 5] ⟨by decide, by decide⟩ (by decide)

/-- C8: from a well-formed store, over any sequence of orchestrator
operations: a scored posting is never selected by the unscored query, its
score and reasoning survive unchanged (still not selectable afterwards), and
a set notified flag survives. -/
theorem C8_monotonic_state (st : DBState) (ops : List Op) (j : JobRow) (v : Int)
    (hwf : WF st) (hj : j ∈ st.jobs) :
    (j.match_score = some v →
      j ∉ getUnanalyzedJobs st ∧
      ∃ j' ∈ (applyOps ops st).jobs, j'.id = j.id ∧ j'.match_score = some v ∧
        j'.match_reasoning = j.match_reasoning ∧
        j' ∉ getUnanalyzedJobs (applyOps ops st)) ∧
    (j.notified = 1 → ∃ j' ∈ (applyOps ops st).jobs, j'.id = j.id ∧ j'.notified = 1) := by
  obtain ⟨y, hy, hid, _, _, hscore, hnot⟩ := stateStep_applyOps ops st hwf j hj
  constructor
  · intro hv
    refine ⟨?_, y, hy, hid, (hscore v hv).1, (hscore v hv).2, ?_⟩
    · intro hmem
      have h2 := (List.mem_filter.mp hmem).2
      simp [hv] at h2
    · intro hmem
      have h2 := (List.mem_filter.mp hmem).2
      simp [(hscore v hv).1] at h2
  · intro hn
    exact ⟨y, hy, hid, hnot hn⟩

/-- Witness for C8: a scored posting survives a chat-registration operation
with its score intact and stays outside the unscored query. -/
theorem C8_monotonic_state_witness :
    mkScored 3 "c" 70 ∉ getUnanalyzedJobs exampleState ∧
    ∃ j' ∈ (applyOps [Op.regChat 5] exampleState).jobs,
      j'.id = (mkScored 3 "c" 70).id ∧ j'.match_score = some 70 ∧
      j'.match_reasoning = (mkScored 3 "c" 70).match_reasoning ∧
      j' ∉ getUnanalyzedJobs (applyOps [Op.regChat 5] exampleState) :=
  (C8_monotonic_state exampleState [Op.regChat 5] (mkScored 3 "c" 70) 70
    ⟨by decide, by decide⟩ (by decide)).1 rfl

end JobAgent
